import Mathlib

set_option maxHeartbeats 1000000

namespace Haki

/-- Byte sequences written to a sink; bytes are modelled as natural numbers. -/
abbrev Chunk := List Nat

/-- Functional update of an association list, replacing the first binding of the key
(models the Go header map Set and context-storage overwrite). -/
def setAssoc {α : Type} : List (String × α) → String → α → List (String × α)
  | [], k, v => [(k, v)]
  | (k', v') :: rest, k, v =>
      if k' = k then (k, v) :: rest else (k', v') :: setAssoc rest k v

/-- Lookup in an association list with a default (Go map access returning a zero value). -/
def getAssocD {α : Type} : List (String × α) → String → α → α
  | [], _, d => d
  | (k', v') :: rest, k, d => if k' = k then v' else getAssocD rest k d

/-- Lookup in an association list. -/
def getAssoc {α : Type} : List (String × α) → String → Option α
  | [], _ => none
  | (k', v') :: rest, k => if k' = k then some v' else getAssoc rest k

/-- Whether the second list is an initial segment of the first. -/
def startsWithL : List Char → List Char → Bool
  | _, [] => true
  | [], _ :: _ => false
  | c :: cs, d :: ds => c == d && startsWithL cs ds

/-- Whether the needle occurs as a contiguous segment of the haystack. -/
def containsSub : List Char → List Char → Bool
  | [], needle => needle.isEmpty
  | c :: rest, needle => startsWithL (c :: rest) needle || containsSub rest needle

/-- Models Go strings.Contains. -/
def strContains (s sub : String) : Bool := containsSub s.toList sub.toList

/-- The bytes of a string, as written to a sink. -/
def strBytes (s : String) : Chunk := s.toList.map Char.toNat

/-- The raw output sink: response headers, the WriteHeader calls it received, and
the byte chunks handed to it (the underlying http.ResponseWriter). -/
structure HSink where
  headers : List (String × String)
  headerWrites : List Nat
  chunks : List Chunk
deriving DecidableEq

/-- A possibly wrapped response writer: either the raw sink, or one responseWriter
wrapper (source type responseWriter) recording status and size around an inner
writer. -/
inductive Writer where
  | base (sink : HSink)
  | wrap (inner : Writer) (status : Nat) (size : Nat)
deriving DecidableEq

/-- Models w.Header().Set: the header map lives on the raw sink and wrappers
delegate to it. -/
def Writer.SetHeader : Writer → String → String → Writer
  | .base s, k, v => .base { s with headers := setAssoc s.headers k v }
  | .wrap i st sz, k, v => .wrap (i.SetHeader k v) st sz

/-- Models w.Header().Get on the shared header map. -/
def Writer.GetHeader : Writer → String → String
  | .base s, k => getAssocD s.headers k ""
  | .wrap i _ _, k => i.GetHeader k

/-- Source responseWriter.WriteHeader: record the status and forward to the wrapped
writer; the raw sink records the call it received. -/
def Writer.WriteHeader : Writer → Nat → Writer
  | .base s, c => .base { s with headerWrites := s.headerWrites ++ [c] }
  | .wrap i _ sz, c => .wrap (i.WriteHeader c) c sz

/-- Number of responseWriter wrappers around the raw sink. -/
def Writer.shape : Writer → Nat
  | .base _ => 0
  | .wrap i _ _ => i.shape + 1

/-- One descent implementing responseWriter.Write: pend carries a WriteHeader call
being forwarded down from an enclosing wrapper that just defaulted its status (the
source's w.WriteHeader(200) forwards level by level before the write itself is
forwarded, and both follow the same spine). At each wrapper the pending status is
applied first, then the wrapper's own default-200 rule; at the raw sink the pending
status is recorded, the chunk handed over, and uw reports the count and error. -/
def Writer.writeAux (uw : HSink → Chunk → Nat × Option String) (pend : Option Nat) :
    Writer → Chunk → Writer × Nat × Option String
  | .base s, b =>
      let s1 := match pend with
        | some c => { s with headerWrites := s.headerWrites ++ [c] }
        | none => s
      (.base { s1 with chunks := s1.chunks ++ [b] }, (uw s1 b).1, (uw s1 b).2)
  | .wrap i st sz, b =>
      let st1 := match pend with
        | some c => c
        | none => st
      let st2 := if st1 = 0 then 200 else st1
      let pend2 := if st1 = 0 then some 200 else pend
      (.wrap (Writer.writeAux uw pend2 i b).1 st2 (sz + (Writer.writeAux uw pend2 i b).2.1),
       (Writer.writeAux uw pend2 i b).2.1, (Writer.writeAux uw pend2 i b).2.2)

/-- Source responseWriter.Write: if no status has been recorded yet, write the
default status 200 first, then forward the write to the wrapped writer, add the
reported count to the running size, and return the inner count and error unchanged.
Stated via the structural descent writeAux; the literal transcription is WriteSrc
below, proved equal in Write_eq_WriteSrc. -/
def Writer.Write (uw : HSink → Chunk → Nat × Option String) (w : Writer) (b : Chunk) :
    Writer × Nat × Option String :=
  Writer.writeAux uw none w b

/-- The literal transcription of responseWriter.Write from the source: default the
status to 200 when unwritten (forwarding the WriteHeader down), then forward the
write to the inner writer. -/
def Writer.WriteSrc (uw : HSink → Chunk → Nat × Option String) :
    Writer → Chunk → Writer × Nat × Option String
  | .base s, b =>
      (.base { s with chunks := s.chunks ++ [b] }, (uw s b).1, (uw s b).2)
  | .wrap i st sz, b =>
      let i0 := if st = 0 then i.WriteHeader 200 else i
      let st0 := if st = 0 then 200 else st
      (.wrap (Writer.WriteSrc uw i0 b).1 st0 (sz + (Writer.WriteSrc uw i0 b).2.1),
       (Writer.WriteSrc uw i0 b).2.1, (Writer.WriteSrc uw i0 b).2.2)
termination_by w _ => w.shape
decreasing_by
  all_goals
    simp only [Writer.shape]
    have hsh : ∀ (w : Writer) (c : Nat), (Writer.WriteHeader w c).shape = w.shape := by
      intro w c
      induction w with
      | base s => rfl
      | wrap i _st _sz ih => simp [Writer.WriteHeader, Writer.shape, ih]
    split <;> simp [hsh, Nat.lt_succ_self]

/-- Source responseWriter.Status: the recorded status (0 for the raw sink). -/
def Writer.Status : Writer → Nat
  | .base _ => 0
  | .wrap _ st _ => st

/-- Source responseWriter.Size: the accumulated body size (0 for the raw sink). -/
def Writer.Size : Writer → Nat
  | .base _ => 0
  | .wrap _ _ sz => sz

/-- Source responseWriter.Written: whether a status has been recorded. -/
def Writer.Written : Writer → Bool
  | .base _ => false
  | .wrap _ st _ => st != 0

/-- Source NewResponseWriter: a fresh wrapper with status 0 and size 0. -/
def NewResponseWriter (w : Writer) : Writer := .wrap w 0 0

/-- Dropping one wrapper, keeping the mutated inner writer (the outer code keeps
its reference to the original writer object after a decorator returns). -/
def unwrapW : Writer → Writer
  | .base s => .base s
  | .wrap i _ _ => i

/-- Log severity of the l logger calls used by the source. -/
inductive Level where
  | info
  | error
deriving DecidableEq

/-- A structured log field (the l field constructors used by the source). -/
inductive Field where
  | str (k v : String)
  | bool (k : String) (b : Bool)
  | int (k : String) (n : Nat)
  | dur (k : String) (n : Nat)
  | err (m : String)
deriving DecidableEq

/-- One emitted log event: severity, event name, and fields (the logger's
WithFields fields followed by the call-site fields). -/
structure Event where
  level : Level
  name : String
  fields : List Field
deriving DecidableEq

/-- Build an event from logger fields plus call-site fields. -/
def mkEvent (lv : Level) (nm : String) (lf extra : List Field) : Event :=
  ⟨lv, nm, lf ++ extra⟩

/-- Modelled from the spec: the Identity type is declared outside src; per the spec
it carries an opaque bearer token and claims (ID, Name). -/
structure Identity where
  token : String
  idVal : String
  name : String
deriving DecidableEq

/-- Modelled from the spec: the Auditor type is declared outside src; per the spec
it bundles trace id, correlation id, a logger (its fields) and the resolved
identity, and logs through that logger. -/
structure Auditor where
  tid : String
  cid : String
  loggerFields : List Field
  identity : Identity
deriving DecidableEq

/-- A value stored in request-scoped storage. -/
inductive CtxVal where
  | str (s : String)
  | logFields (fs : List Field)
  | ident (i : Identity)
  | aud (a : Auditor)
deriving DecidableEq

/-- An HTTP request: method, path, headers, body bytes, and the request-scoped
context storage. -/
structure Request where
  method : String
  path : String
  headers : List (String × String)
  body : Chunk
  ctx : List (String × CtxVal)
deriving DecidableEq

/-- Models r.Header.Get: empty string when the header is absent. -/
def reqHeaderGet (r : Request) (k : String) : String := getAssocD r.headers k ""

/-- Modelled from the spec: the set helper is declared outside src; per the spec
each set returns a new request value carrying the added key (functional update). -/
def set (r : Request) (k : String) (v : CtxVal) : Request :=
  { r with ctx := setAssoc r.ctx k v }

/-- Read a context value from request-scoped storage. -/
def ctxGet (r : Request) (k : String) : Option CtxVal := getAssoc r.ctx k

/-- Read a string context value, empty when absent or of another shape. -/
def ctxGetStr (r : Request) (k : String) : String :=
  match ctxGet r k with
  | some (.str v) => v
  | _ => ""

/-- Modelled from the spec: haki.RequestIDHeader is declared outside src; a
representative literal for the trace-id response header. -/
def RequestIDHeader : String := "X-Request-Id"

/-- Modelled from the spec: haki.RequestContextHeader is declared outside src; a
representative literal for the correlation-id header. -/
def RequestContextHeader : String := "X-Request-Context"

/-- Models haki.ContentTypeHeader. -/
def ContentTypeHeader : String := "Content-Type"

/-- Models haki.AcceptHeader. -/
def AcceptHeader : String := "Accept"

/-- Modelled from the spec: ContextKeys.TID, a request-scoped storage key. -/
def keyTID : String := "tid"

/-- Modelled from the spec: ContextKeys.CID, a request-scoped storage key. -/
def keyCID : String := "cid"

/-- Modelled from the spec: ContextKeys.LOG, a request-scoped storage key. -/
def keyLOG : String := "log"

/-- Modelled from the spec: ContextKeys.TOKEN, a request-scoped storage key. -/
def keyTOKEN : String := "token"

/-- Modelled from the spec: ContextKeys.IDENTITY, a request-scoped storage key. -/
def keyIDENTITY : String := "identity"

/-- Modelled from the spec: ContextKeys.AUDITOR, a request-scoped storage key. -/
def keyAUDITOR : String := "auditor"

/-- Modelled from the spec: json.ContentType is declared outside src; the
registered JSON content type used for negotiation. -/
def jsonContentType : String := "application/json"

/-- Modelled from the spec: haki.ErrInvalidContentType is declared outside src; the
unsupported content type error. -/
def ErrInvalidContentType : String := "unsupported content type"

/-- Models net/http StatusText for the codes this development uses; unknown codes
map to the empty string as in net/http. -/
def statusText : Nat → String
  | 200 => "OK"
  | 500 => "Internal Server Error"
  | _ => ""

/-- Syntax of handler computations: the operations a handler or decorator performs
against the response writer, the log, the clock, and the id generator. A program
returns an optional error message. withWriter runs its body against a fresh
responseWriter wrapper around the current writer (NewResponseWriter) and hands the
wrapper's final recorded status and size to the continuation. -/
inductive HProg where
  | ret (res : Option String)
  | hdr (k v : String) (next : HProg)
  | writeHeader (code : Nat) (next : HProg)
  | write (b : Chunk) (next : Nat → Option String → HProg)
  | logE (e : Event) (next : HProg)
  | tick (next : HProg)
  | now (next : Nat → HProg)
  | fresh (next : String → HProg)
  | readHeader (k : String) (next : String → HProg)
  | withWriter (body : HProg) (next : Nat → Nat → Option String → HProg)

/-- Sequencing of handler programs: run the first, feed its result to the second. -/
def HProg.bind : HProg → (Option String → HProg) → HProg
  | .ret e, f => f e
  | .hdr k v p, f => .hdr k v (p.bind f)
  | .writeHeader c p, f => .writeHeader c (p.bind f)
  | .write b g, f => .write b (fun n e => (g n e).bind f)
  | .logE ev p, f => .logE ev (p.bind f)
  | .tick p, f => .tick (p.bind f)
  | .now g, f => .now (fun t => (g t).bind f)
  | .fresh g, f => .fresh (fun i => (g i).bind f)
  | .readHeader k g, f => .readHeader k (fun v => (g v).bind f)
  | .withWriter body g, f => .withWriter body (fun st sz e => (g st sz e).bind f)

/-- A fallible handler: source type HTTPHandlerFunc, as a request-indexed program. -/
abbrev HandlerFun := Request → HProg

/-- The mutable world threaded through execution: the writer, the emitted log, the
clock, and the id-generator position. -/
structure St where
  w : Writer
  log : List Event
  time : Nat
  genIdx : Nat
deriving DecidableEq

/-- Execute a handler program. uw gives the raw sink's write behaviour; gen the
id-generator stream. -/
def exec (uw : HSink → Chunk → Nat × Option String) (gen : Nat → String) :
    HProg → St → St × Option String
  | .ret e, s => (s, e)
  | .hdr k v p, s => exec uw gen p { s with w := s.w.SetHeader k v }
  | .writeHeader c p, s => exec uw gen p { s with w := s.w.WriteHeader c }
  | .write b f, s =>
      exec uw gen (f (s.w.Write uw b).2.1 (s.w.Write uw b).2.2)
        { s with w := (s.w.Write uw b).1 }
  | .logE ev p, s => exec uw gen p { s with log := s.log ++ [ev] }
  | .tick p, s => exec uw gen p { s with time := s.time + 1 }
  | .now f, s => exec uw gen (f s.time) s
  | .fresh f, s => exec uw gen (f (gen s.genIdx)) { s with genIdx := s.genIdx + 1 }
  | .readHeader k f, s => exec uw gen (f (s.w.GetHeader k)) s
  | .withWriter body f, s =>
      exec uw gen
        (f (exec uw gen body { s with w := NewResponseWriter s.w }).1.w.Status
           (exec uw gen body { s with w := NewResponseWriter s.w }).1.w.Size
           (exec uw gen body { s with w := NewResponseWriter s.w }).2)
        { (exec uw gen body { s with w := NewResponseWriter s.w }).1 with
          w := unwrapW (exec uw gen body { s with w := NewResponseWriter s.w }).1.w }

/-- Source Handler: adapts a fallible handler to the dispatch contract, invoking it
and discarding its error. -/
def Handler (handler : HandlerFun) : HandlerFun :=
  fun r => (handler r).bind fun _ => .ret none

/-- Source Wrap: fold the wrappers over the base handler (current = w(current) for
each wrapper in list order) and adapt the result with Handler. -/
def Wrap (h : HandlerFun) (wrappers : List (HandlerFun → HandlerFun)) : HandlerFun :=
  Handler (wrappers.foldl (fun current w => w current) h)

/-- Modelled from the spec: net/http Error is outside this repository; per the spec
it writes the fixed failure status 500 with the error's message as the plain-text
body, via the sink's status and write primitives. -/
def httpError (m : String) : HProg :=
  .hdr ContentTypeHeader "text/plain; charset=utf-8"
    (.writeHeader 500 (.write (strBytes m) fun _ _ => .ret none))

/-- Source errorHandle: run the inner handler; on error write the 500 response with
the error message and re-return the same error, otherwise return success untouched. -/
def errorHandle (handler : HandlerFun) (r : Request) : HProg :=
  (handler r).bind fun e =>
    match e with
    | some m => (httpError m).bind fun _ => .ret (some m)
    | none => .ret none

/-- Source Error: the error-translating decorator. -/
def Error (handler : HandlerFun) : HandlerFun :=
  fun r => errorHandle handler r

/-- The error event the logging and audit decorators emit when the inner handler
failed, and nothing otherwise (the source's if err != nil branch). -/
def errEvents (lf : List Field) : Option String → List Event
  | some m => [mkEvent .error "haki.http.RequestErr" lf [Field.err m]]
  | none => []

/-- Log the error event when the inner handler failed, then continue (the source's
if err != nil logging step). -/
def errLog (lf : List Field) (e : Option String) (next : HProg) : HProg :=
  match e with
  | some m => HProg.logE (mkEvent .error "haki.http.RequestErr" lf [Field.err m]) next
  | none => next

/-- The WithFields fields of the logging decorator's logger. -/
def logFields (tid method path : String) : List Field :=
  [Field.str "tid" tid, Field.str "method" method, Field.str "path" path]

/-- Source logHandle: generate a trace id, store it and a fields-carrying logger in
request-scoped storage, log the request, run the inner handler against a fresh
responseWriter, log an error event if it failed, log the response event with status
text, size and elapsed time, and return the inner handler's error. -/
def logHandle (handler : HandlerFun) (r : Request) : HProg :=
  .fresh fun tid =>
  let r1 := set r "tid" (.str tid)
  let lf := logFields tid r1.method r1.path
  .now fun start =>
  .logE (mkEvent .info "haki.hhtp.Request" lf [Field.bool "ctxIsNil" false]) <|
  let r2 := set r1 keyLOG (.logFields lf)
  .withWriter (handler r2) fun st sz errRes =>
  errLog lf errRes <|
  (.now fun stop =>
   .logE (mkEvent .info "haki.http.Response" lf
     [Field.str "status" (statusText st), Field.int "size" sz,
      Field.dur "requestTime" (stop - start)]) <|
   .ret errRes)

/-- Source Log: the logging decorator. -/
def Log (handler : HandlerFun) : HandlerFun :=
  fun r => logHandle handler r

/-- The fixed anonymous identity built by auditHandle (literal from the source). -/
def anonIdentity : Identity := ⟨"tanonymous", "uanonymous", "User Anonymous"⟩

/-- The WithFields fields of the audit decorator's logger. -/
def auditFields (tid cid method path token : String) : List Field :=
  [Field.str "tid" tid, Field.str "cid" cid, Field.str "method" method,
   Field.str "path" path, Field.str "token" token]

/-- Source auditHandle: note the entry time, generate a trace id, read the inbound
correlation id, set the trace-id and correlation-id response headers, store context
values, build the anonymous identity, logger and auditor, log the request, run the
inner handler against a fresh responseWriter, log an error event if it failed, log
the response event, and return the inner handler's error. Line 205 of the source
stores the trace id, not the inbound correlation id, under the correlation-id key. -/
def auditHandle (handler : HandlerFun) (r : Request) : HProg :=
  .now fun start =>
  .fresh fun tid =>
  let cid := reqHeaderGet r RequestContextHeader
  .hdr RequestIDHeader tid <|
  .hdr RequestContextHeader cid <|
  let r1 := set r keyTID (.str tid)
  let r2 := set r1 keyCID (.str tid)
  let lf := auditFields tid cid r2.method r2.path anonIdentity.token
  let auditor : Auditor := ⟨tid, cid, lf, anonIdentity⟩
  .logE (mkEvent .info "haki.http.Request" lf [Field.bool "ctxIsNil" false]) <|
  let r3 := set r2 keyLOG (.logFields lf)
  let r4 := set r3 keyTOKEN (.str anonIdentity.token)
  let r5 := set r4 keyIDENTITY (.ident anonIdentity)
  let r6 := set r5 keyAUDITOR (.aud auditor)
  .withWriter (handler r6) fun st sz errRes =>
  errLog lf errRes <|
  (.now fun stop =>
   .logE (mkEvent .info "haki.http.Response" lf
     [Field.str "status" (statusText st), Field.int "size" sz,
      Field.dur "requestTime" (stop - start)]) <|
   .ret errRes)

/-- Source Audit: the audit decorator, which is the error-translating decorator
applied around the audit core. -/
def Audit (handler : HandlerFun) : HandlerFun :=
  Error fun r => auditHandle handler r

/-- Source ReadJSON: delegate to the JSON codec on the request body. The codec dec
returns the updated decode target, the number of body bytes consumed, and an
optional error; ReadJSON passes its outcome through. -/
def ReadJSON {α : Type} (dec : Chunk → α → α × Nat × Option String) (r : Request)
    (data : α) : α × Nat × Option String :=
  match dec r.body data with
  | (d, n, some m) => (d, n, some m)
  | (d, n, none) => (d, n, none)

/-- Source ReadByContentType: if the Content-Type header contains the registered
JSON content type, delegate to ReadJSON; otherwise fail with the unsupported
content type error, consuming no body bytes and leaving the target unchanged. -/
def ReadByContentType {α : Type} (dec : Chunk → α → α × Nat × Option String)
    (r : Request) (data : α) : α × Nat × Option String :=
  let contentType := reqHeaderGet r ContentTypeHeader
  if strContains contentType jsonContentType then ReadJSON dec r data
  else (data, 0, some ErrInvalidContentType)

/-- The state mutation net/http Error performs, per the httpError model: set the
plain-text content type, write status 500, write the message bytes. -/
def httpErrorSt (uw : HSink → Chunk → Nat × Option String) (m : String) (s : St) : St :=
  { s with
    w := (((s.w.SetHeader ContentTypeHeader "text/plain; charset=utf-8").WriteHeader
            500).Write uw (strBytes m)).1 }

/-- The request logHandle hands to the inner handler: the trace id under the raw
"tid" context key and the logger fields under the logger key. -/
def logRequest (r : Request) (tid : String) : Request :=
  set (set r "tid" (.str tid)) keyLOG (.logFields (logFields tid r.method r.path))

/-- The state in which logHandle runs the inner handler: a fresh responseWriter
around the current writer, the request-received event appended, the id generator
advanced. -/
def logEntrySt (gen : Nat → String) (r : Request) (s : St) : St :=
  { s with
    w := NewResponseWriter s.w,
    log := s.log ++ [mkEvent .info "haki.hhtp.Request"
      (logFields (gen s.genIdx) r.method r.path) [Field.bool "ctxIsNil" false]],
    genIdx := s.genIdx + 1 }

/-- The request auditHandle hands to the inner handler. The correlation-id key
receives the trace id, as in line 205 of the source. -/
def auditRequest (r : Request) (tid : String) : Request :=
  let cid := reqHeaderGet r RequestContextHeader
  let lf := auditFields tid cid r.method r.path anonIdentity.token
  set (set (set (set (set (set r keyTID (.str tid)) keyCID (.str tid))
    keyLOG (.logFields lf)) keyTOKEN (.str anonIdentity.token))
    keyIDENTITY (.ident anonIdentity)) keyAUDITOR (.aud ⟨tid, cid, lf, anonIdentity⟩)

/-- The state in which auditHandle runs the inner handler: trace-id and
correlation-id response headers set, a fresh responseWriter wrapped around the
writer, the request-received event appended, the id generator advanced. -/
def auditEntrySt (gen : Nat → String) (r : Request) (s : St) : St :=
  let tid := gen s.genIdx
  let cid := reqHeaderGet r RequestContextHeader
  { s with
    w := NewResponseWriter ((s.w.SetHeader RequestIDHeader tid).SetHeader
          RequestContextHeader cid),
    log := s.log ++ [mkEvent .info "haki.http.Request"
      (auditFields tid cid r.method r.path anonIdentity.token)
      [Field.bool "ctxIsNil" false]],
    genIdx := s.genIdx + 1 }

/-- The exit effect shared by logHandle and auditHandle after the inner handler ran
against the fresh responseWriter: keep the mutated inner writer, log an error event
when the handler failed, and log the response event with status text, size and
elapsed time. -/
def logExitSt (lf : List Field) (startTime : Nat) (inner : St × Option String) : St :=
  { inner.1 with
    w := unwrapW inner.1.w,
    log := inner.1.log
      ++ errEvents lf inner.2
      ++ [mkEvent .info "haki.http.Response" lf
           [Field.str "status" (statusText inner.1.w.Status),
            Field.int "size" inner.1.w.Size,
            Field.dur "requestTime" (inner.1.time - startTime)]] }

/-- A sequence of Write calls against a writer, collecting the returned count and
error of each call. -/
def writeSeq (uw : HSink → Chunk → Nat × Option String) :
    Writer → List Chunk → Writer × List (Nat × Option String)
  | w, [] => (w, [])
  | w, b :: bs =>
      ((writeSeq uw (w.Write uw b).1 bs).1,
       ((w.Write uw b).2.1, (w.Write uw b).2.2) :: (writeSeq uw (w.Write uw b).1 bs).2)

/-- The counts and errors the raw sink itself reports for a sequence of chunks. -/
def sinkTrace (uw : HSink → Chunk → Nat × Option String) :
    HSink → List Chunk → List (Nat × Option String)
  | _, [] => []
  | s, b :: bs =>
      ((uw s b).1, (uw s b).2) :: sinkTrace uw { s with chunks := s.chunks ++ [b] } bs

/-- A marker decorator used to observe nesting order: logs a before event, runs the
inner handler, logs an after event, passes the error through. -/
def mkMark (t : String) (h : HandlerFun) : HandlerFun :=
  fun r => .logE ⟨.info, t ++ ".before", []⟩
    ((h r).bind fun e => .logE ⟨.info, t ++ ".after", []⟩ (.ret e))

/-- The before marker event of a tagged marker decorator. -/
def beforeEv (t : String) : Event := ⟨.info, t ++ ".before", []⟩

/-- The after marker event of a tagged marker decorator. -/
def afterEv (t : String) : Event := ⟨.info, t ++ ".after", []⟩

/-- A handler that logs the trace-id and correlation-id values it finds in
request-scoped storage. -/
def ctxProbe : HandlerFun := fun r =>
  .logE ⟨.info, "ctxProbe",
    [Field.str "tidCtx" (ctxGetStr r keyTID), Field.str "cidCtx" (ctxGetStr r keyCID)]⟩
    (.ret none)

/-- A handler that logs the trace-id and correlation-id response header values it
observes on its writer. -/
def headerProbe : HandlerFun := fun _ =>
  .readHeader RequestIDHeader fun tidv =>
  .readHeader RequestContextHeader fun cidv =>
  .logE ⟨.info, "headerProbe",
    [Field.str "tidHeader" tidv, Field.str "cidHeader" cidv]⟩ (.ret none)

/-- A raw sink write behaviour that accepts every chunk in full with no error. -/
def uw0 : HSink → Chunk → Nat × Option String := fun _ b => (b.length, none)

/-- A concrete id-generator stream. -/
def gen0 : Nat → String := fun n => "id" ++ toString n

/-- An empty raw sink. -/
def sink0 : HSink := ⟨[], [], []⟩

/-- A fresh execution state over an empty raw sink. -/
def s0 : St := ⟨.base sink0, [], 0, 0⟩

/-- A concrete request with no headers. -/
def r0 : Request := ⟨"GET", "/x", [], [], []⟩

/-- A concrete request carrying inbound correlation id "abc". -/
def rAbc : Request := ⟨"GET", "/x", [(RequestContextHeader, "abc")], [], []⟩

/-- A handler that logs one event and succeeds. -/
def h0 : HandlerFun := fun _ => .logE ⟨.info, "inner", []⟩ (.ret none)

/-- A handler that fails with error "boom". -/
def hBoom : HandlerFun := fun _ => .ret (some "boom")

/-- A concrete codec for the read-dispatch witness: the target accumulates the body
length, the whole body is consumed, no error. -/
def dec0 : Chunk → Nat → Nat × Nat × Option String :=
  fun b t => (t + b.length, b.length, none)

/-- A request with a JSON content type (with charset parameter). -/
def rJson : Request :=
  ⟨"POST", "/x", [(ContentTypeHeader, "application/json; charset=utf-8")], [1, 2], []⟩

/-- A request with a plain-text content type. -/
def rPlain : Request :=
  ⟨"POST", "/x", [(ContentTypeHeader, "text/plain")], [1, 2], []⟩

/-- The structural write descent agrees with the literal source transcription of
responseWriter.Write, both with no pending forwarded header and with a forwarded
default 200. -/
theorem writeAux_eq_WriteSrc (uw : HSink → Chunk → Nat × Option String) (b : Chunk)
    (w : Writer) :
    Writer.writeAux uw none w b = Writer.WriteSrc uw w b ∧
    Writer.writeAux uw (some 200) w b = Writer.WriteSrc uw (w.WriteHeader 200) b := by
  induction w with
  | base s =>
    constructor <;> simp [Writer.writeAux, Writer.WriteSrc, Writer.WriteHeader]
  | wrap i st sz ih =>
    constructor
    · by_cases hst : st = 0
      · simp [Writer.writeAux, Writer.WriteSrc, hst, ih.2]
      · simp [Writer.writeAux, Writer.WriteSrc, hst, ih.1]
    · simp [Writer.writeAux, Writer.WriteSrc, Writer.WriteHeader, ih.2]

/-- Writer.Write is the source responseWriter.Write. -/
theorem Write_eq_WriteSrc (uw : HSink → Chunk → Nat × Option String) (w : Writer)
    (b : Chunk) : Writer.Write uw w b = Writer.WriteSrc uw w b :=
  (writeAux_eq_WriteSrc uw b w).1

/-- Executing a sequenced program runs the first program, then the continuation on
its result. -/
theorem exec_bind (uw : HSink → Chunk → Nat × Option String) (gen : Nat → String)
    (p : HProg) (f : Option String → HProg) (s : St) :
    exec uw gen (p.bind f) s =
      exec uw gen (f (exec uw gen p s).2) (exec uw gen p s).1 := by
  induction p generalizing s with
  | ret e => rfl
  | hdr k v q ih => simp [HProg.bind, exec, ih]
  | writeHeader c q ih => simp [HProg.bind, exec, ih]
  | write b g ih => simp [HProg.bind, exec, ih]
  | logE ev q ih => simp [HProg.bind, exec, ih]
  | tick q ih => simp [HProg.bind, exec, ih]
  | now g ih => simp [HProg.bind, exec, ih]
  | fresh g ih => simp [HProg.bind, exec, ih]
  | readHeader k g ih => simp [HProg.bind, exec, ih]
  | withWriter body g ih1 ih2 => simp [HProg.bind, exec, ih2]

/-- Updating a key then reading it back yields the new value. -/
theorem getAssocD_setAssoc_same {α : Type} (l : List (String × α)) (k : String)
    (v d : α) : getAssocD (setAssoc l k v) k d = v := by
  induction l with
  | nil => simp [setAssoc, getAssocD]
  | cons hd t ih =>
    obtain ⟨k', v'⟩ := hd
    by_cases hk : k' = k
    · simp [setAssoc, getAssocD, hk]
    · simp [setAssoc, getAssocD, hk, ih]

/-- Updating one key leaves reads of a different key unchanged. -/
theorem getAssocD_setAssoc_ne {α : Type} (l : List (String × α)) (k q : String)
    (v d : α) (h : q ≠ k) :
    getAssocD (setAssoc l k v) q d = getAssocD l q d := by
  induction l with
  | nil => simp [setAssoc, getAssocD, Ne.symm h]
  | cons hd t ih =>
    obtain ⟨k', v'⟩ := hd
    by_cases hk : k' = k
    · subst hk
      simp [setAssoc, getAssocD, Ne.symm h]
    · simp only [setAssoc, if_neg hk]
      by_cases hq : k' = q
      · simp [getAssocD, hq]
      · simp [getAssocD, hq, ih]

/-- Reading a header just set yields the set value. -/
theorem GetHeader_SetHeader_same (w : Writer) (k v : String) :
    (w.SetHeader k v).GetHeader k = v := by
  induction w with
  | base s => simp [Writer.SetHeader, Writer.GetHeader, getAssocD_setAssoc_same]
  | wrap i st sz ih => simp [Writer.SetHeader, Writer.GetHeader, ih]

/-- Setting one header leaves reads of a different header unchanged. -/
theorem GetHeader_SetHeader_ne (w : Writer) (k q v : String) (h : q ≠ k) :
    (w.SetHeader k v).GetHeader q = w.GetHeader q := by
  induction w with
  | base s => simp [Writer.SetHeader, Writer.GetHeader, getAssocD_setAssoc_ne _ _ _ _ _ h]
  | wrap i st sz ih => simp [Writer.SetHeader, Writer.GetHeader, ih]

/-- Characterization of the error-translating core: the inner handler runs first;
on success the state is passed through untouched, on error the 500 response with
the message body is written and the same error is returned. -/
theorem errorHandle_exec (uw : HSink → Chunk → Nat × Option String)
    (gen : Nat → String) (h : HandlerFun) (r : Request) (s : St) :
    exec uw gen (errorHandle h r) s =
      ((exec uw gen (h r) s).2.elim (exec uw gen (h r) s).1
         (fun m => httpErrorSt uw m (exec uw gen (h r) s).1),
       (exec uw gen (h r) s).2) := by
  unfold errorHandle
  rw [exec_bind]
  cases hres : exec uw gen (h r) s with
  | mk s' e =>
    cases e with
    | none => simp [exec]
    | some m => simp [exec, HProg.bind, httpError, httpErrorSt]

/-- Executing the conditional error-logging step appends the error events and
continues. -/
theorem errLog_exec (uw : HSink → Chunk → Nat × Option String) (gen : Nat → String)
    (lf : List Field) (e : Option String) (p : HProg) (s : St) :
    exec uw gen (errLog lf e p) s = exec uw gen p { s with log := s.log ++ errEvents lf e } := by
  cases e with
  | none => simp [errLog, errEvents]
  | some m => simp [errLog, errEvents, exec]

/-- Characterization of the logging core: the inner handler runs against the
enriched request and entry state, then the exit effect applies and the inner
handler's error is returned. -/
theorem logHandle_exec (uw : HSink → Chunk → Nat × Option String)
    (gen : Nat → String) (h : HandlerFun) (r : Request) (s : St) :
    exec uw gen (logHandle h r) s =
      (logExitSt (logFields (gen s.genIdx) r.method r.path) s.time
         (exec uw gen (h (logRequest r (gen s.genIdx))) (logEntrySt gen r s)),
       (exec uw gen (h (logRequest r (gen s.genIdx))) (logEntrySt gen r s)).2) := by
  unfold logHandle
  simp only [exec, errLog_exec]
  simp [exec, logExitSt, logRequest, logEntrySt, set, List.append_assoc]

/-- Characterization of the audit core: the inner handler runs against the enriched
request (whose correlation-id key holds the trace id, as in the source) and the
entry state with both response headers set, then the exit effect applies and the
inner handler's error is returned. -/
theorem auditHandle_exec (uw : HSink → Chunk → Nat × Option String)
    (gen : Nat → String) (h : HandlerFun) (r : Request) (s : St) :
    exec uw gen (auditHandle h r) s =
      (logExitSt
         (auditFields (gen s.genIdx) (reqHeaderGet r RequestContextHeader)
           r.method r.path anonIdentity.token) s.time
         (exec uw gen (h (auditRequest r (gen s.genIdx))) (auditEntrySt gen r s)),
       (exec uw gen (h (auditRequest r (gen s.genIdx))) (auditEntrySt gen r s)).2) := by
  unfold auditHandle
  simp only [exec, errLog_exec]
  simp [exec, logExitSt, auditRequest, auditEntrySt, set, List.append_assoc]

/-- Folding marker decorators over a handler runs the before markers in reverse
list order, then the handler, then the after markers in list order. -/
theorem foldMark_exec (uw : HSink → Chunk → Nat × Option String) (gen : Nat → String)
    (tags : List String) (h : HandlerFun) (r : Request) (s : St) :
    exec uw gen ((tags.foldl (fun cur t => mkMark t cur) h) r) s =
      ({ (exec uw gen (h r) { s with log := s.log ++ tags.reverse.map beforeEv }).1 with
         log := (exec uw gen (h r)
             { s with log := s.log ++ tags.reverse.map beforeEv }).1.log
           ++ tags.map afterEv },
       (exec uw gen (h r) { s with log := s.log ++ tags.reverse.map beforeEv }).2) := by
  induction tags generalizing h s with
  | nil =>
    simp only [List.foldl_nil, List.reverse_nil, List.map_nil, List.append_nil]
  | cons t ts ih =>
    rw [List.foldl_cons, ih (mkMark t h)]
    simp only [mkMark, exec, exec_bind]
    simp [exec, List.append_assoc, beforeEv, afterEv]

/-- A write sequence against a single wrapper with a nonzero recorded status over
the raw sink: the status never changes again, the size accumulates the counts the
raw sink reports, the chunks all reach the raw sink, and every count and error pair
is the raw sink's own. -/
theorem writeSeq_wrap_base (uw : HSink → Chunk → Nat × Option String)
    (bs : List Chunk) :
    ∀ (s : HSink) (st sz : Nat), st ≠ 0 →
    writeSeq uw (.wrap (.base s) st sz) bs =
      (.wrap (.base { s with chunks := s.chunks ++ bs }) st
         (sz + ((sinkTrace uw s bs).map Prod.fst).sum),
       sinkTrace uw s bs) := by
  induction bs with
  | nil => intro s st sz hst; simp [writeSeq, sinkTrace]
  | cons b bs ih =>
    intro s st sz hst
    have hw : Writer.Write uw (.wrap (.base s) st sz) b =
        (.wrap (.base { s with chunks := s.chunks ++ [b] }) st (sz + (uw s b).1),
         (uw s b).1, (uw s b).2) := by
      simp [Writer.Write, Writer.writeAux, hst]
    simp only [writeSeq, hw]
    rw [ih { s with chunks := s.chunks ++ [b] } st (sz + (uw s b).1) hst]
    simp [sinkTrace, List.append_assoc, Nat.add_assoc]

/-- C1 counterexample: with decorators listed as [d1, d2], Wrap runs d2's before
logic first and d2's after logic last, so the first decorator listed is not the
outermost — the order the claim predicts does not occur. -/
theorem c1_first_listed_outermost_cex :
    (exec uw0 gen0 (Wrap h0 [mkMark "d1", mkMark "d2"] r0) s0).1.log =
      [⟨.info, "d2.before", []⟩, ⟨.info, "d1.before", []⟩, ⟨.info, "inner", []⟩,
       ⟨.info, "d1.after", []⟩, ⟨.info, "d2.after", []⟩] ∧
    (exec uw0 gen0 (Wrap h0 [mkMark "d1", mkMark "d2"] r0) s0).1.log ≠
      [⟨.info, "d1.before", []⟩, ⟨.info, "d2.before", []⟩, ⟨.info, "inner", []⟩,
       ⟨.info, "d2.after", []⟩, ⟨.info, "d1.after", []⟩] := by
  decide

/-- C1 amended: Wrap applies each decorator in list order via current = w(current),
so the LAST decorator listed is outermost: its before logic runs first and its
after logic runs last, with the base handler innermost — strict LIFO nesting equal
to dn(...(d1(h))...) — and the adapted dispatch handler discards the error. -/
theorem c1_wrap_last_listed_outermost (uw : HSink → Chunk → Nat × Option String)
    (gen : Nat → String) (tags : List String) (h : HandlerFun) (r : Request) (s : St) :
    exec uw gen (Wrap h (tags.map mkMark) r) s =
      ({ (exec uw gen (h r) { s with log := s.log ++ tags.reverse.map beforeEv }).1 with
         log := (exec uw gen (h r)
             { s with log := s.log ++ tags.reverse.map beforeEv }).1.log
           ++ tags.map afterEv },
       none) := by
  simp only [Wrap, Handler, List.foldl_map]
  rw [exec_bind, foldMark_exec]
  simp [exec]

/-- C2: auditHandle stores the freshly generated trace id under BOTH the trace-id
key and the correlation-id key of request-scoped storage; with inbound correlation
header "abc" and generated id "id0", the handler observes "id0", not "abc", under
the correlation-id key. -/
theorem c2_audit_stores_trace_id_under_correlation_key :
    reqHeaderGet rAbc RequestContextHeader = "abc" ∧
    (exec uw0 gen0 (auditHandle ctxProbe rAbc) s0).1.log.filter
        (fun ev => ev.name == "ctxProbe") =
      [⟨.info, "ctxProbe",
        [Field.str "tidCtx" "id0", Field.str "cidCtx" "id0"]⟩] ∧
    ("id0" : String) ≠ "abc" := by
  decide

/-- C3: on a fresh instrumented writer with no prior WriteHeader, any nonempty
sequence of writes records status exactly 200, the size equals the sum of the
counts the raw sink reported, and every count and error pair returned is the raw
sink's own, unchanged (the sink having first received the forwarded default 200
header write). -/
theorem c3_instrumented_write_defaults_200_and_sums
    (uw : HSink → Chunk → Nat × Option String) (sk : HSink) (chunks : List Chunk)
    (hne : chunks ≠ []) :
    (writeSeq uw (NewResponseWriter (.base sk)) chunks).1.Status = 200 ∧
    (writeSeq uw (NewResponseWriter (.base sk)) chunks).1.Size =
      ((writeSeq uw (NewResponseWriter (.base sk)) chunks).2.map Prod.fst).sum ∧
    (writeSeq uw (NewResponseWriter (.base sk)) chunks).2 =
      sinkTrace uw { sk with headerWrites := sk.headerWrites ++ [200] } chunks := by
  cases chunks with
  | nil => exact absurd rfl hne
  | cons c cs =>
    have hw : Writer.Write uw (NewResponseWriter (.base sk)) c =
        (Writer.wrap (Writer.base { HSink.mk sk.headers (sk.headerWrites ++ [200]) sk.chunks with chunks := sk.chunks ++ [c] }) 200
           (0 + (uw { sk with headerWrites := sk.headerWrites ++ [200] } c).1),
         (uw { sk with headerWrites := sk.headerWrites ++ [200] } c).1,
         (uw { sk with headerWrites := sk.headerWrites ++ [200] } c).2) := by
      simp [NewResponseWriter, Writer.Write, Writer.writeAux]
    simp only [writeSeq, hw]
    rw [writeSeq_wrap_base uw cs
      { HSink.mk sk.headers (sk.headerWrites ++ [200]) sk.chunks with chunks := sk.chunks ++ [c] }
      200 (0 + (uw { sk with headerWrites := sk.headerWrites ++ [200] } c).1)
      (by decide)]
    refine ⟨rfl, ?_, ?_⟩
    · simp [Writer.Size, sinkTrace]
    · simp [sinkTrace]

/-- C3 witness: two concrete writes of three and one bytes against an empty sink. -/
theorem c3_witness :
    (writeSeq uw0 (NewResponseWriter (.base sink0)) [[1, 2, 3], [4]]).1.Status = 200 ∧
    (writeSeq uw0 (NewResponseWriter (.base sink0)) [[1, 2, 3], [4]]).1.Size =
      ((writeSeq uw0 (NewResponseWriter (.base sink0)) [[1, 2, 3], [4]]).2.map
        Prod.fst).sum ∧
    (writeSeq uw0 (NewResponseWriter (.base sink0)) [[1, 2, 3], [4]]).2 =
      sinkTrace uw0 { sink0 with headerWrites := sink0.headerWrites ++ [200] }
        [[1, 2, 3], [4]] :=
  c3_instrumented_write_defaults_200_and_sums uw0 sink0 [[1, 2, 3], [4]] (by decide)

/-- C4: the error-translating decorator runs the inner handler; on success it
returns no error and leaves the state untouched, and on error it performs exactly
one error response write (status 500, message bytes as plain-text body) and returns
the same error. -/
theorem c4_error_decorator_translates (uw : HSink → Chunk → Nat × Option String)
    (gen : Nat → String) (h : HandlerFun) (r : Request) (s : St) :
    exec uw gen (Error h r) s =
      ((exec uw gen (h r) s).2.elim (exec uw gen (h r) s).1
         (fun m => httpErrorSt uw m (exec uw gen (h r) s).1),
       (exec uw gen (h r) s).2) :=
  errorHandle_exec uw gen h r s

/-- C5: for every request, a handler run under the audit decorator observes the
trace-id response header holding the freshly generated id (nonempty whenever the
generator yields a nonempty id) and the correlation-id response header holding
exactly the inbound correlation header value, empty when absent. -/
theorem c5_audit_sets_trace_and_correlation_headers
    (uw : HSink → Chunk → Nat × Option String) (gen : Nat → String)
    (r : Request) (s : St) (hne : gen s.genIdx ≠ "") :
    ∃ pre post,
      (exec uw gen (Audit headerProbe r) s).1.log =
        pre ++ ⟨.info, "headerProbe",
          [Field.str "tidHeader" (gen s.genIdx),
           Field.str "cidHeader" (reqHeaderGet r RequestContextHeader)]⟩ :: post ∧
      gen s.genIdx ≠ "" := by
  have h1 : ((s.w.SetHeader RequestIDHeader (gen s.genIdx)).SetHeader
      RequestContextHeader (reqHeaderGet r RequestContextHeader)).GetHeader
      RequestIDHeader = gen s.genIdx := by
    rw [GetHeader_SetHeader_ne _ _ _ _ (by decide), GetHeader_SetHeader_same]
  have h2 : ((s.w.SetHeader RequestIDHeader (gen s.genIdx)).SetHeader
      RequestContextHeader (reqHeaderGet r RequestContextHeader)).GetHeader
      RequestContextHeader = reqHeaderGet r RequestContextHeader :=
    GetHeader_SetHeader_same _ _ _
  refine ⟨(auditEntrySt gen r s).log,
    [mkEvent .info "haki.http.Response"
      (auditFields (gen s.genIdx) (reqHeaderGet r RequestContextHeader)
        r.method r.path anonIdentity.token)
      [Field.str "status" (statusText 0), Field.int "size" 0,
       Field.dur "requestTime" (s.time - s.time)]], ?_, hne⟩
  simp only [Audit, Error]
  rw [errorHandle_exec]
  simp only []
  rw [auditHandle_exec]
  simp [headerProbe, exec, auditEntrySt, NewResponseWriter, Writer.GetHeader, h1, h2,
    logExitSt, errEvents, Writer.Status, Writer.Size, mkEvent, List.append_assoc]

/-- C5 witness: concrete request with inbound correlation id "abc" and generator
yielding the nonempty id "id0". -/
theorem c5_witness :
    ∃ pre post,
      (exec uw0 gen0 (Audit headerProbe rAbc) s0).1.log =
        pre ++ ⟨.info, "headerProbe",
          [Field.str "tidHeader" (gen0 s0.genIdx),
           Field.str "cidHeader" (reqHeaderGet rAbc RequestContextHeader)]⟩ :: post ∧
      gen0 s0.genIdx ≠ "" :=
  c5_audit_sets_trace_and_correlation_headers uw0 gen0 rAbc s0 (by decide)

/-- C6: Wrap with an empty decorator list yields a total dispatch handler that
performs exactly the base handler's side effects and discards its error. -/
theorem c6_wrap_empty_discards_error (uw : HSink → Chunk → Nat × Option String)
    (gen : Nat → String) (h : HandlerFun) (r : Request) (s : St) :
    exec uw gen (Wrap h [] r) s = ((exec uw gen (h r) s).1, none) := by
  simp only [Wrap, Handler, List.foldl_nil]
  rw [exec_bind]
  simp [exec]

/-- C7: ReadByContentType delegates to the JSON codec exactly when the Content-Type
header contains the registered JSON content type, and otherwise fails with the
unsupported content type error, consuming zero body bytes and returning the decode
target unchanged. -/
theorem c7_read_dispatch_by_content_type {α : Type}
    (dec : Chunk → α → α × Nat × Option String) (r : Request) (t : α) :
    (strContains (reqHeaderGet r ContentTypeHeader) jsonContentType = true →
      ReadByContentType dec r t = ReadJSON dec r t) ∧
    (strContains (reqHeaderGet r ContentTypeHeader) jsonContentType = false →
      ReadByContentType dec r t = (t, 0, some ErrInvalidContentType)) := by
  constructor <;> intro hct <;> simp [ReadByContentType, hct]

/-- C7 witness: a JSON content type with charset parameter delegates to the codec;
a plain-text content type yields the unsupported content type error with no bytes
consumed and the target unchanged. -/
theorem c7_witness :
    ReadByContentType dec0 rJson (0 : Nat) = ReadJSON dec0 rJson 0 ∧
    ReadByContentType dec0 rPlain (0 : Nat) = (0, 0, some ErrInvalidContentType) :=
  ⟨(c7_read_dispatch_by_content_type dec0 rJson 0).1 (by decide),
   (c7_read_dispatch_by_content_type dec0 rPlain 0).2 (by decide)⟩

/-- C8: the logging decorator returns exactly the inner handler's error, and in
both the success and the error case its exit effect logs the response event
carrying the recorded status text, the accumulated size, and the elapsed
duration. -/
theorem c8_log_returns_error_and_logs_response
    (uw : HSink → Chunk → Nat × Option String) (gen : Nat → String)
    (h : HandlerFun) (r : Request) (s : St) :
    exec uw gen (Log h r) s =
      (logExitSt (logFields (gen s.genIdx) r.method r.path) s.time
         (exec uw gen (h (logRequest r (gen s.genIdx))) (logEntrySt gen r s)),
       (exec uw gen (h (logRequest r (gen s.genIdx))) (logEntrySt gen r s)).2) :=
  logHandle_exec uw gen h r s

/-- C9 counterexample: wrapping Audit(h) in the error-translating decorator is not
observationally transparent: with a failing handler the raw sink ends in a
different state (the 500 response is written twice). -/
theorem c9_double_error_wrap_not_transparent_cex :
    (exec uw0 gen0 ((Error (Audit hBoom)) r0) s0).1.w ≠
      (exec uw0 gen0 (Audit hBoom r0) s0).1.w := by
  decide

/-- C9 amended: Audit is definitionally the error-translating decorator around the
audit core, so audited handler errors are already translated to a 500 response;
but additionally wrapping Audit(h) in Error is redundant in a visible way — when
the audited handler errs, the outer Error writes the 500 status and message body a
second time on top of Audit's own response. -/
theorem c9_audit_is_error_around_core :
    (∀ h : HandlerFun, Audit h = Error (fun r => auditHandle h r)) ∧
    (∀ (uw : HSink → Chunk → Nat × Option String) (gen : Nat → String)
       (h : HandlerFun) (r : Request) (s : St),
      exec uw gen ((Error (Audit h)) r) s =
        ((exec uw gen (Audit h r) s).2.elim (exec uw gen (Audit h r) s).1
           (fun m => httpErrorSt uw m (exec uw gen (Audit h r) s).1),
         (exec uw gen (Audit h r) s).2)) :=
  ⟨fun _ => rfl, fun uw gen h r s => errorHandle_exec uw gen (Audit h) r s⟩

/-- C10: a fresh instrumented writer reports status 0 (the unset sentinel, not
200), not written, and size 0; a handler that writes nothing therefore leaves the
recorded status 0 and the logging decorator's response event carries the status
text of 0, the empty string. -/
theorem c10_fresh_writer_status_zero (uw : HSink → Chunk → Nat × Option String)
    (gen : Nat → String) (r : Request) (s : St) (w : Writer) :
    (NewResponseWriter w).Status = 0 ∧ (NewResponseWriter w).Written = false ∧
    (NewResponseWriter w).Size = 0 ∧
    (∃ pre, (exec uw gen (Log (fun _ => .ret none) r) s).1.log =
      pre ++ [mkEvent .info "haki.http.Response"
        (logFields (gen s.genIdx) r.method r.path)
        [Field.str "status" (statusText 0), Field.int "size" 0,
         Field.dur "requestTime" 0]]) ∧ statusText 0 = "" := by
  refine ⟨rfl, rfl, rfl, ⟨(logEntrySt gen r s).log, ?_⟩, rfl⟩
  rw [show Log (fun _ => HProg.ret none) r = logHandle (fun _ => HProg.ret none) r
    from rfl, logHandle_exec]
  simp [logExitSt, errEvents, exec, logEntrySt, NewResponseWriter, Writer.Status,
    Writer.Size, Nat.sub_self]

end Haki
